import Mathlib

/-!
# Shallow embedding of the express_fileshare share-link core

This file embeds, in Lean 4, the share-link access-control and lifecycle
engine of the repository together with its storage-quota accounting:

* the `ShareLink` model and its instance methods (`src/models/ShareLink.js`):
  `isExpired`, `canDownload`, `recordAccess`, `recordDownload`;
* share-link creation (`POST /api/files/:id/share` in `src/routes/files.js`
  and `POST /api/folders/:id/share` in `src/routes/folders.js`);
* the four public share routes of `src/routes/shares.js`:
  `GET /:token` (metadata resolve), `GET /:token/download`,
  `GET /:token/folder` (listing), `GET /:token/zip` (recursive archive),
  including the recursive `getAllFiles` folder walk of the zip route;
* the storage-quota guard `FileService.validateFileSize` and
  `FileService.getStorageUsage` (`src/services/fileService.js`);
* a small interleaving model of the download route's load / gate-check /
  record phases, used to analyse concurrent downloads racing against a
  `maxDownloads` ceiling.

Database rows are modelled as Lean structures, the ORM result sets as lists,
timestamps as natural numbers, and the unbounded recursion of the zip route's
folder walk with an explicit fuel parameter (`none` = the recursion did not
complete within the given depth).
-/

namespace FileShare

/-- The `permissions` ENUM of the ShareLink model: 'read' | 'write' | 'admin'. -/
inductive Permission
  | read
  | write
  | admin
deriving DecidableEq

/-- One row of the `Files` table, restricted to the columns the share-link
core reads: `id`, `userId` (owner), `folderId` (nullable parent folder),
`size` and the soft-delete flag `isDeleted`. -/
structure DbFile where
  id : Nat
  userId : Nat
  folderId : Option Nat
  size : Nat
  isDeleted : Bool
deriving DecidableEq

/-- One row of the `Folders` table, restricted to the columns the share-link
core reads: `id`, `parentId` (nullable) and the soft-delete flag. -/
structure DbFolder where
  id : Nat
  parentId : Option Nat
  isDeleted : Bool
deriving DecidableEq

/-- The relational store as seen by the share-link core. -/
structure DB where
  files : List DbFile
  folders : List DbFolder
deriving DecidableEq

/-- One row of the `ShareLinks` table (`src/models/ShareLink.js`), restricted
to the columns the routes read.  `expiresAt` and `lastAccessed` are epoch
timestamps; `fileId` / `folderId` are the (nullable) target associations. -/
structure ShareLink where
  token : String
  userId : Nat
  fileId : Option Nat
  folderId : Option Nat
  expiresAt : Option Nat
  password : Option String
  maxDownloads : Option Nat
  downloadCount : Nat
  isActive : Bool
  permissions : Permission
  accessCount : Nat
  lastAccessed : Option Nat
deriving DecidableEq

/-- Models the external bcrypt collaborator (spec section 6: constant-time
verify of a candidate against a stored hash).  `bcryptHash` stands for
hashing; a bcrypt digest always carries a `$2b$...` version/cost header, so a
digest is never equal to a raw password, and `bcryptCompare cand stored`
succeeds exactly when `stored` is a digest of `cand`. -/
def bcryptHash (s : String) : String := "$2b$12$" ++ s

/-- `bcrypt.compare(candidate, stored)` of the bcryptjs collaborator. -/
def bcryptCompare (candidate stored : String) : Bool :=
  stored == bcryptHash candidate

/-- `ShareLink.prototype.isExpired`:
`if (!this.expiresAt) return false; return new Date() > this.expiresAt`. -/
def ShareLink.isExpired (l : ShareLink) (now : Nat) : Bool :=
  match l.expiresAt with
  | none => false
  | some e => decide (e < now)

/-- The quota clause of `canDownload`:
`this.maxDownloads && this.downloadCount >= this.maxDownloads`.
JS truthiness makes both a NULL and a stored 0 count as "no limit". -/
def ShareLink.quotaReached (l : ShareLink) : Bool :=
  match l.maxDownloads with
  | none => false
  | some m => decide (0 < m) && decide (m ≤ l.downloadCount)

/-- `ShareLink.prototype.canDownload`: active, not expired, quota not hit. -/
def ShareLink.canDownload (l : ShareLink) (now : Nat) : Bool :=
  if !l.isActive then false
  else if l.isExpired now then false
  else if l.quotaReached then false
  else true

/-- `ShareLink.prototype.recordAccess(ip)`: bumps `accessCount`, stamps
`lastAccessed` (the `ip` argument is unused by the method body). -/
def ShareLink.recordAccess (l : ShareLink) (now : Nat) : ShareLink :=
  { l with accessCount := l.accessCount + 1, lastAccessed := some now }

/-- `ShareLink.prototype.recordDownload()`: bumps `downloadCount`. -/
def ShareLink.recordDownload (l : ShareLink) : ShareLink :=
  { l with downloadCount := l.downloadCount + 1 }

/-- The share target chosen at creation: exactly one of file / folder. -/
inductive ShareTarget
  | file (id : Nat)
  | folder (id : Nat)
deriving DecidableEq

/-- `ShareLink.create` as invoked by `POST /api/files/:id/share` and
`POST /api/folders/:id/share`.  The token comes from the random generator
(modelled as the `token` argument).  Note that the routes store the
request-body `password` verbatim: the ShareLink model has no hashing hook
(unlike the User model, which bcrypt-hashes in `beforeCreate`). -/
def createShareLink (userId : Nat) (target : ShareTarget) (token : String)
    (expiresAt : Option Nat) (password : Option String)
    (maxDownloads : Option Nat) (permissions : Option Permission) : ShareLink :=
  { token := token
    userId := userId
    fileId := match target with | .file i => some i | .folder _ => none
    folderId := match target with | .file _ => none | .folder i => some i
    expiresAt := expiresAt
    password := password
    maxDownloads := maxDownloads
    downloadCount := 0
    isActive := true
    permissions := permissions.getD Permission.read
    accessCount := 0
    lastAccessed := none }

/-- Outcome of the password block shared by the download / folder / zip
routes: `required` is the 401 "Password required" branch (link has a password
but none was supplied), `invalid` the 401 "Invalid password" branch. -/
inductive PwCheck
  | required
  | invalid
deriving DecidableEq

/-- The password block repeated in `GET /:token/download`, `GET /:token/folder`
and `GET /:token/zip`:
`if (shareLink.password) { if (!password) 401-required;
 if (!bcrypt.compare(password, shareLink.password)) 401-invalid }`.
`none` means the block fell through (no password set, or compare succeeded). -/
def passwordGate (l : ShareLink) (pw : Option String) : Option PwCheck :=
  match l.password with
  | none => none
  | some stored =>
    match pw with
    | none => some PwCheck.required
    | some p => if bcryptCompare p stored then none else some PwCheck.invalid

/-- The permission block of the download and folder routes:
`shareLink.permissions === 'admin' && (!req.user || req.user.id !== shareLink.userId)`.
Returns `true` when the request is to be rejected with 403. -/
def adminGate (l : ShareLink) (requester : Option Nat) : Bool :=
  l.permissions == Permission.admin &&
    (match requester with
     | none => true
     | some u => !(u == l.userId))

/-- HTTP-level outcome of the single-file / metadata / folder share routes. -/
inductive ShareOutcome
  | notFound          -- 404: link has no target of the expected kind
  | gone              -- 410: "Share link has expired or reached download limit"
  | passwordRequired  -- 401: "Password required"
  | passwordInvalid   -- 401: "Invalid password"
  | accessDenied      -- 403: "Access denied"
  | ok                -- 200
deriving DecidableEq

/-- `GET /api/shares/:token` (metadata resolve), from the link found by token
on: deny 410 unless `canDownload()`, otherwise `recordAccess` and answer with
the share summary.  Returns the outcome and the link row afterwards. -/
def resolveShare (l : ShareLink) (now : Nat) : ShareOutcome × ShareLink :=
  if !l.canDownload now then (ShareOutcome.gone, l)
  else (ShareOutcome.ok, l.recordAccess now)

/-- `GET /api/shares/:token/download`, from the link found by token on:
404 without a file target, 410 unless `canDownload()`, then the password
block, then the admin-tier creator check, then `recordDownload` and stream. -/
def downloadShared (l : ShareLink) (pw : Option String) (requester : Option Nat)
    (now : Nat) : ShareOutcome × ShareLink :=
  if l.fileId.isNone then (ShareOutcome.notFound, l)
  else if !l.canDownload now then (ShareOutcome.gone, l)
  else
    match passwordGate l pw with
    | some PwCheck.required => (ShareOutcome.passwordRequired, l)
    | some PwCheck.invalid => (ShareOutcome.passwordInvalid, l)
    | none =>
      if adminGate l requester then (ShareOutcome.accessDenied, l)
      else (ShareOutcome.ok, l.recordDownload)

/-- `GET /api/shares/:token/folder` (listing), from the link found by token
on: 404 without a folder target, 410 unless `canDownload()`, password block,
admin-tier creator check, then `recordAccess` and answer with the listing. -/
def folderShared (l : ShareLink) (pw : Option String) (requester : Option Nat)
    (now : Nat) : ShareOutcome × ShareLink :=
  if l.folderId.isNone then (ShareOutcome.notFound, l)
  else if !l.canDownload now then (ShareOutcome.gone, l)
  else
    match passwordGate l pw with
    | some PwCheck.required => (ShareOutcome.passwordRequired, l)
    | some PwCheck.invalid => (ShareOutcome.passwordInvalid, l)
    | none =>
      if adminGate l requester then (ShareOutcome.accessDenied, l)
      else (ShareOutcome.ok, l.recordAccess now)

/-- `File.findAll({ where: { folderId, isDeleted: false } })`. -/
def filesInFolder (db : DB) (fid : Nat) : List DbFile :=
  db.files.filter (fun f => f.folderId == some fid && f.isDeleted == false)

/-- `Folder.findAll({ where: { parentId: folderId, isDeleted: false } })`. -/
def subfoldersOf (db : DB) (fid : Nat) : List DbFolder :=
  db.folders.filter (fun g => g.parentId == some fid && g.isDeleted == false)

/-- The `for (const subfolder of subfolders) files.push(...await getAllFiles(subfolder.id))`
loop of the zip route, parametric in the recursive call `step`. -/
def collectSub (step : Nat → Option (List DbFile)) :
    List DbFolder → List DbFile → Option (List DbFile)
  | [], acc => some acc
  | g :: gs, acc =>
    match step g.id with
    | none => none
    | some sub => collectSub step gs (acc ++ sub)

/-- The recursive `getAllFiles(folderId)` closure of `GET /:token/zip`:
direct non-deleted files of the folder, then recursion into each non-deleted
subfolder.  The source recursion is unbounded (no visited set, no depth cap);
the embedding adds a fuel parameter, `none` meaning the walk did not finish
within `fuel` levels of nesting. -/
def getAllFiles (db : DB) : Nat → Nat → Option (List DbFile)
  | 0, _ => none
  | fuel + 1, fid =>
    collectSub (fun i => getAllFiles db fuel i) (subfoldersOf db fid) (filesInFolder db fid)

/-- HTTP-level outcome of the zip route; `ok` carries the files archived. -/
inductive ZipOutcome
  | notFound                 -- 404: link has no folder target
  | forbidden                -- 403: "Insufficient permissions"
  | passwordRequired         -- 401
  | passwordInvalid          -- 401
  | emptyFolder              -- 404: "No files found in folder"
  | ok (files : List DbFile) -- 200: ZIP streamed
deriving DecidableEq

/-- `GET /api/shares/:token/zip`, from the link found by token on:
404 without a folder target, 403 unless `permissions` is 'write' or 'admin',
the password block, the recursive `getAllFiles` walk, 404 on an empty
collection, else `createZip`, `recordDownload` and stream.  Faithful to the
source, the route has no `canDownload()` call (no active / expiry / quota
check) and no admin-tier creator check. -/
def zipShared (db : DB) (fuel : Nat) (l : ShareLink) (pw : Option String) :
    ZipOutcome × ShareLink :=
  match l.folderId with
  | none => (ZipOutcome.notFound, l)
  | some fid =>
    if !(l.permissions == Permission.write || l.permissions == Permission.admin) then
      (ZipOutcome.forbidden, l)
    else
      match passwordGate l pw with
      | some PwCheck.required => (ZipOutcome.passwordRequired, l)
      | some PwCheck.invalid => (ZipOutcome.passwordInvalid, l)
      | none =>
        match getAllFiles db fuel fid with
        | none => (ZipOutcome.notFound, l)  -- walk did not terminate: unreachable in source
        | some allFiles =>
          if allFiles.length == 0 then (ZipOutcome.emptyFolder, l)
          else (ZipOutcome.ok allFiles, l.recordDownload)

/-- The subscription row, restricted to `storageLimit` (BIGINT, non-null). -/
structure Subscription where
  storageLimit : Nat
deriving DecidableEq

/-- The user row, restricted to the account-level `storageLimit` default and
the optional subscription association loaded by `validateFileSize`. -/
structure User where
  id : Nat
  storageLimit : Nat
  subscription : Option Subscription
deriving DecidableEq

/-- `FileService.getStorageUsage(userId)`:
`File.sum('size', { where: { userId, isDeleted: false } }) || 0`. -/
def getStorageUsage (db : DB) (userId : Nat) : Nat :=
  ((db.files.filter (fun f => f.userId == userId && f.isDeleted == false)).map
    DbFile.size).sum

/-- The limit selection of `validateFileSize`:
`user.subscription?.storageLimit || user.storageLimit` — under JS truthiness a
subscription whose stored limit is 0 falls back to the account default. -/
def effectiveLimit (u : User) : Nat :=
  match u.subscription with
  | none => u.storageLimit
  | some s => if s.storageLimit == 0 then u.storageLimit else s.storageLimit

/-- `FileService.validateFileSize(userId, fileSize)`: throws
`Error('Storage limit exceeded')` when `currentUsage + fileSize > limit`,
otherwise returns `true`. -/
def validateFileSize (db : DB) (u : User) (fileSize : Nat) : Except String Bool :=
  if getStorageUsage db u.id + fileSize > effectiveLimit u then
    Except.error "Storage limit exceeded"
  else
    Except.ok true

/-! ## Interleaving model of the download route's critical section

`GET /:token/download` runs, per request: a `findOne` load of the ShareLink
row, the `canDownload()` gate evaluated on the loaded copy, and
`recordDownload()` (`this.downloadCount += 1; await this.save()`), a plain
read-modify-write of the loaded value with no conditional-increment at the
persistence layer.  Requests suspend at each `await`, so the phases of
concurrent requests interleave arbitrarily. -/

/-- Phase of one in-flight download request: not yet started; row loaded and
gate evaluated on the loaded copy; finished (with whether the download was
accepted and recorded). -/
inductive ReqPhase
  | start
  | checked (loadedCount : Nat) (passed : Bool)
  | finished (accepted : Bool)
deriving DecidableEq

/-- The shared persisted `downloadCount` plus the phase of each request. -/
structure RaceState where
  persisted : Nat
  reqs : List ReqPhase
deriving DecidableEq

/-- One scheduler step advancing request `i` by one phase.  `l` is the link
row template (all columns except the racing `downloadCount`). -/
def raceStep (l : ShareLink) (now : Nat) (s : RaceState) (i : Nat) : RaceState :=
  match s.reqs.get? i with
  | none => s
  | some ReqPhase.start =>
    let loaded := s.persisted
    let passed := ShareLink.canDownload { l with downloadCount := loaded } now
    { s with reqs := s.reqs.set i (ReqPhase.checked loaded passed) }
  | some (ReqPhase.checked loaded passed) =>
    if passed then
      { persisted := loaded + 1, reqs := s.reqs.set i (ReqPhase.finished true) }
    else
      { s with reqs := s.reqs.set i (ReqPhase.finished false) }
  | some (ReqPhase.finished _) => s

/-- Run a schedule (a list of request indices, each occurrence advancing that
request by one phase). -/
def runRace (l : ShareLink) (now : Nat) (s : RaceState) (sched : List Nat) : RaceState :=
  sched.foldl (raceStep l now) s

/-- Number of requests the Access Recorder accepted (gate passed and the
download recorded). -/
def acceptedDownloads (s : RaceState) : Nat :=
  (s.reqs.filter (fun q => q == ReqPhase.finished true)).length

/-! ## Reachability through the folder forest -/

/-- Folder `tid` is reachable from `root` by descending through zero or more
non-deleted subfolder rows along the `parentId` relation — exactly the
folders whose files the zip route's `getAllFiles` recursion visits.  Note the
root's own row (and its soft-delete flag) plays no role, matching the source:
`getAllFiles` is called on `shareLink.folder.id` unconditionally. -/
inductive Reach (db : DB) (root : Nat) : Nat → Prop
  | refl : Reach db root root
  | step (g : DbFolder) (p : Nat) (hg : g ∈ db.folders) (hdel : g.isDeleted = false)
      (hp : g.parentId = some p) (hr : Reach db root p) : Reach db root g.id

/-- A file the recursive collection should return: a non-deleted file row
whose parent folder is reachable from the shared root through non-deleted
subfolders. -/
def EligibleFrom (db : DB) (root : Nat) (f : DbFile) : Prop :=
  f ∈ db.files ∧ f.isDeleted = false ∧
    ∃ tid, f.folderId = some tid ∧ Reach db root tid

/-- `r` witnesses that the `parentId` relation is acyclic: every child folder
has strictly smaller rank than its parent, so descending chains are finite. -/
def rankedAcyclicB (db : DB) (r : Nat → Nat) : Bool :=
  db.folders.all (fun g =>
    match g.parentId with
    | none => true
    | some p => decide (r g.id < r p))

/-! ## Concrete fixtures -/

/-- A non-deleted file owned by user 7, sitting in folder 1. -/
def exFile : DbFile := { id := 10, userId := 7, folderId := some 1, size := 4, isDeleted := false }

/-- A database with one non-deleted root folder holding one file. -/
def exDb : DB :=
  { files := [exFile]
    folders := [{ id := 1, parentId := none, isDeleted := false }] }

/-- A share link on folder 1 with `maxDownloads = 1`, write tier, no
password, no expiry. -/
def exLink : ShareLink :=
  createShareLink 7 (ShareTarget.folder 1) "tokA" none none (some 1) (some Permission.write)

/-- `exLink` after revocation (`isActive := false`) and with an expiry in the
past relative to `now = 10`. -/
def deadLink : ShareLink := { exLink with isActive := false, expiresAt := some 5 }

/-- A password-protected share link on file 3, created with password
`"secret1"` (stored verbatim by the route, as in the source). -/
def pwLink : ShareLink :=
  createShareLink 7 (ShareTarget.file 3) "tokB" none (some "secret1") none none

/-- A share link on file 3 with `maxDownloads = 1`, used as the row template
in the concurrency schedule. -/
def oneDlLink : ShareLink :=
  createShareLink 7 (ShareTarget.file 3) "tokC" none none (some 1) none

/-- A quota-exhausted link: `maxDownloads = 1` and `downloadCount = 1`,
active, no expiry, no password. -/
def quotaLink : ShareLink :=
  { createShareLink 7 (ShareTarget.folder 1) "tokD" none none (some 1) none with
      downloadCount := 1 }

/-- A deleted root folder whose direct file is itself not deleted. -/
def delRootFolder : DbFolder := { id := 1, parentId := none, isDeleted := true }

/-- A non-deleted file sitting directly in the deleted folder 1. -/
def delRootFile : DbFile := { id := 10, userId := 7, folderId := some 1, size := 4, isDeleted := false }

/-- Database for the deleted-shared-root scenario. -/
def delRootDb : DB := { files := [delRootFile], folders := [delRootFolder] }

/-- A link on folder 1 with write tier over an empty folder tree. -/
def emptyFolderLink : ShareLink :=
  createShareLink 7 (ShareTarget.folder 1) "tokE" none none none (some Permission.write)

/-- A database whose folder 1 exists but contains no files at all. -/
def emptyDb : DB :=
  { files := [], folders := [{ id := 1, parentId := none, isDeleted := false }] }

/-- A two-folder `parentId` cycle (1 → 2 → 1), the shape the source's
unguarded recursion cannot terminate on. -/
def cycDb : DB :=
  { files := []
    folders := [{ id := 1, parentId := some 2, isDeleted := false },
                { id := 2, parentId := some 1, isDeleted := false }] }

/-- A user with a subscription: account default 50 bytes, subscription limit
100 bytes. -/
def exUser : User := { id := 7, storageLimit := 50, subscription := some { storageLimit := 100 } }

/-! ## Helper lemmas -/

/-- A link whose download quota is exhausted fails `canDownload()` whatever
its other state. -/
theorem canDownload_false_of_quotaReached (l : ShareLink) (now : Nat)
    (hq : l.quotaReached = true) : l.canDownload now = false := by
  unfold ShareLink.canDownload
  rw [hq]
  simp

/-! ## Claim theorems (password, quota, lifecycle, mutation, quota guard) -/

/-- C1: on a link created with a password, the download route answers
"Password required" with no supplied password and "Invalid password" for a
wrong one — but it also answers "Invalid password" for the exact password set
at creation: the creation routes store the password verbatim while the check
runs `bcrypt.compare` against it, so the stored value is never a digest of
the supplied password and the correct password is never accepted. -/
theorem share_password_gate_behaviour :
    pwLink.password = some "secret1" ∧
    (downloadShared pwLink none none 0).fst = ShareOutcome.passwordRequired ∧
    (downloadShared pwLink (some "wrong") none 0).fst = ShareOutcome.passwordInvalid ∧
    (downloadShared pwLink (some "secret1") none 0).fst = ShareOutcome.passwordInvalid := by
  decide

/-- C2: the zip route performs no `canDownload()` check, so two sequential
folder-ZIP downloads against a link with `maxDownloads = 1` both succeed and
leave `downloadCount = 2 > 1`, breaking the quota invariant even without
concurrency. -/
theorem zip_route_exceeds_maxDownloads :
    exLink.maxDownloads = some 1 ∧ exLink.downloadCount = 0 ∧
    (zipShared exDb 2 exLink none).fst = ZipOutcome.ok [exFile] ∧
    (zipShared exDb 2 (zipShared exDb 2 exLink none).snd none).fst = ZipOutcome.ok [exFile] ∧
    ((zipShared exDb 2 (zipShared exDb 2 exLink none).snd none).snd).downloadCount = 2 := by
  decide

/-- C3: the download route's gate check and `recordDownload()` are separate
steps with no atomic increment-and-compare: under the interleaving
load₀, load₁, record₀, record₁ of two concurrent requests against a link with
`maxDownloads = 1`, both requests pass the gate (each loaded count 0) and both
record, so the Access Recorder accepts 2 downloads where `min(N, attempts) =
min 1 2 = 1`. -/
theorem concurrent_downloads_exceed_min_quota :
    oneDlLink.maxDownloads = some 1 ∧
    acceptedDownloads
      (runRace oneDlLink 0 { persisted := 0, reqs := [ReqPhase.start, ReqPhase.start] }
        [0, 1, 0, 1]) = 2 ∧
    min 1 2 = 1 := by
  decide

/-- C4: a link that is both revoked (`isActive = false`) and expired fails
`canDownload()`, yet the folder-ZIP route — which never calls it — still
serves the archive and increments `downloadCount`. -/
theorem zip_route_serves_revoked_expired_link :
    deadLink.isActive = false ∧ deadLink.isExpired 10 = true ∧
    deadLink.canDownload 10 = false ∧
    zipShared exDb 2 deadLink none =
      (ZipOutcome.ok [exFile], { deadLink with downloadCount := deadLink.downloadCount + 1 }) := by
  decide

/-- C5 counterexample: a quota-exhausted link (`maxDownloads = 1`,
`downloadCount = 1`) that is active, unexpired and passwordless is denied 410
by the metadata-resolve route and by the folder-listing route, refuting the
claim that the download-quota gate is applied only to download-type
operations. -/
theorem resolve_denies_quota_exhausted_link :
    quotaLink.isActive = true ∧ quotaLink.expiresAt = none ∧
    quotaLink.password = none ∧ quotaLink.maxDownloads = some 1 ∧
    quotaLink.downloadCount = 1 ∧
    resolveShare quotaLink 0 = (ShareOutcome.gone, quotaLink) ∧
    folderShared quotaLink none none 0 = (ShareOutcome.gone, quotaLink) := by
  decide

/-- C5 (amended): the quota gate sits inside `canDownload()`, which the
metadata-resolve, folder-listing and single-file-download routes all call
before anything else besides the 404 check: once `downloadCount` reaches
`maxDownloads`, all three — view operations included — are denied with the
410 outcome. -/
theorem quota_gate_applies_to_view_operations (l : ShareLink) (now : Nat)
    (hq : l.quotaReached = true) :
    resolveShare l now = (ShareOutcome.gone, l) ∧
    (l.folderId ≠ none →
      ∀ pw requester, folderShared l pw requester now = (ShareOutcome.gone, l)) ∧
    (l.fileId ≠ none →
      ∀ pw requester, downloadShared l pw requester now = (ShareOutcome.gone, l)) := by
  have hcd := canDownload_false_of_quotaReached l now hq
  refine ⟨?_, ?_, ?_⟩
  · unfold resolveShare
    rw [hcd]
    rfl
  · intro hf pw requester
    unfold folderShared
    rw [hcd]
    simp [Option.isNone_iff_eq_none, hf]
  · intro hf pw requester
    unfold downloadShared
    rw [hcd]
    simp [Option.isNone_iff_eq_none, hf]

/-- C5 amended-claim witness at the concrete quota-exhausted link. -/
theorem quota_gate_applies_to_view_operations_witness :
    resolveShare quotaLink 0 = (ShareOutcome.gone, quotaLink) ∧
    folderShared quotaLink (some "x") (some 9) 0 = (ShareOutcome.gone, quotaLink) :=
  ⟨(quota_gate_applies_to_view_operations quotaLink 0 (by decide)).1,
   (quota_gate_applies_to_view_operations quotaLink 0 (by decide)).2.1 (by decide)
     (some "x") (some 9)⟩

/-- C6: the storage-quota guard throws "Storage limit exceeded" exactly when
current usage (sum of sizes of the user's non-deleted files) plus the
incoming bytes strictly exceeds the effective limit, which is the
subscription's `storageLimit` when a subscription is present (all
subscription-creation sites assign a positive limit, whence the hypothesis)
and the account-level default otherwise. -/
theorem validateFileSize_spec (db : DB) (u : User) (bytes : Nat)
    (hsub : ∀ s, u.subscription = some s → 0 < s.storageLimit) :
    validateFileSize db u bytes = Except.error "Storage limit exceeded" ↔
      getStorageUsage db u.id + bytes >
        (match u.subscription with
         | some s => s.storageLimit
         | none => u.storageLimit) := by
  have hlim : effectiveLimit u =
      (match u.subscription with
       | some s => s.storageLimit
       | none => u.storageLimit) := by
    unfold effectiveLimit
    cases h : u.subscription with
    | none => rfl
    | some s =>
      have hs := hsub s h
      simp [hs.ne']
  unfold validateFileSize
  rw [hlim]
  split
  next h => exact iff_of_true rfl h
  next h => exact iff_of_false (by simp) h

/-- C6 witness: user with a 100-byte subscription limit, 4 bytes used, 97
incoming. -/
theorem validateFileSize_spec_witness :
    validateFileSize exDb exUser 97 = Except.error "Storage limit exceeded" ↔
      getStorageUsage exDb exUser.id + 97 >
        (match exUser.subscription with
         | some s => s.storageLimit
         | none => exUser.storageLimit) :=
  validateFileSize_spec exDb exUser 97 (fun s hs => by
    rw [show exUser.subscription = some { storageLimit := 100 } from rfl] at hs
    cases hs
    decide)

/-- C8: when the recursive collection over the shared folder's subtree comes
back empty, the zip route answers 404 "No files found in folder" before
`createZip` and before `recordDownload`: no archive is produced and the link
row is unchanged. -/
theorem zip_empty_collection_yields_no_archive (db : DB) (fuel : Nat)
    (l : ShareLink) (pw : Option String) (fid : Nat)
    (hfolder : l.folderId = some fid)
    (hperm : (l.permissions == Permission.write || l.permissions == Permission.admin) = true)
    (hpw : passwordGate l pw = none)
    (hempty : getAllFiles db fuel fid = some []) :
    zipShared db fuel l pw = (ZipOutcome.emptyFolder, l) := by
  unfold zipShared
  rw [hfolder]
  simp [hperm, hpw, hempty]

/-- C8 witness: a write-tier link over a folder tree with no files. -/
theorem zip_empty_collection_yields_no_archive_witness :
    zipShared emptyDb 1 emptyFolderLink none = (ZipOutcome.emptyFolder, emptyFolderLink) :=
  zip_empty_collection_yields_no_archive emptyDb 1 emptyFolderLink none 1
    (by decide) (by decide) (by decide) (by decide)

/-- C9 counterexample: resolving metadata on a fresh, valid link bumps
`accessCount` from 0 to 1 and stamps `lastAccessed`, refuting the claim that
the metadata-resolve operation mutates no persisted state. -/
theorem resolve_mutates_access_counters :
    exLink.accessCount = 0 ∧ exLink.lastAccessed = none ∧
    (resolveShare exLink 5).fst = ShareOutcome.ok ∧
    (resolveShare exLink 5).snd.accessCount = 1 ∧
    (resolveShare exLink 5).snd.lastAccessed = some 5 := by
  decide

/-- C9 (amended): on a link passing `canDownload()`, metadata resolve
records the access — `accessCount + 1` and `lastAccessed := now` — and
changes nothing else; in particular `downloadCount` is untouched. -/
theorem resolveShare_records_access_only (l : ShareLink) (now : Nat)
    (h : l.canDownload now = true) :
    resolveShare l now =
      (ShareOutcome.ok,
        { l with accessCount := l.accessCount + 1, lastAccessed := some now }) ∧
    (resolveShare l now).snd.downloadCount = l.downloadCount := by
  unfold resolveShare ShareLink.recordAccess
  rw [h]
  exact ⟨rfl, rfl⟩

/-- C9 amended-claim witness at the concrete fresh link. -/
theorem resolveShare_records_access_only_witness :
    resolveShare exLink 5 =
      (ShareOutcome.ok,
        { exLink with accessCount := exLink.accessCount + 1, lastAccessed := some 5 }) ∧
    (resolveShare exLink 5).snd.downloadCount = exLink.downloadCount :=
  resolveShare_records_access_only exLink 5 (by decide)

/-! ## Reachability lemmas for the recursive folder walk -/

/-- Reachability composes. -/
theorem reach_trans {db : DB} {a b c : Nat} (h1 : Reach db a b) (h2 : Reach db b c) :
    Reach db a c := by
  induction h2 with
  | refl => exact h1
  | step g p hg hdel hp _ ih => exact Reach.step g p hg hdel hp ih

/-- Unfolding reachability at the top: `tid` is reachable from `a` iff it is
`a` itself or reachable from some non-deleted child folder of `a`. -/
theorem reach_unfold (db : DB) (a tid : Nat) :
    Reach db a tid ↔
      tid = a ∨ ∃ g ∈ db.folders, g.isDeleted = false ∧ g.parentId = some a ∧
        Reach db g.id tid := by
  constructor
  · intro h
    induction h with
    | refl => exact Or.inl rfl
    | step g p hg hdel hp _ ih =>
      rcases ih with rfl | ⟨g', hg', hdel', hp', hr'⟩
      · exact Or.inr ⟨g, hg, hdel, hp, Reach.refl⟩
      · exact Or.inr ⟨g', hg', hdel', hp', Reach.step g p hg hdel hp hr'⟩
  · intro h
    rcases h with rfl | ⟨g, hg, hdel, hp, hr⟩
    · exact Reach.refl
    · exact reach_trans (Reach.step g a hg hdel hp Reach.refl) hr

/-- Inversion of a reachability derivation at the bottom. -/
theorem reach_inv {db : DB} {c b : Nat} (h : Reach db c b) :
    b = c ∨ ∃ g ∈ db.folders, g.isDeleted = false ∧ g.id = b ∧
      ∃ p, g.parentId = some p ∧ Reach db c p := by
  cases h with
  | refl => exact Or.inl rfl
  | step g p hg hdel hp hr => exact Or.inr ⟨g, hg, hdel, rfl, p, hp, hr⟩

/-- Eliminating the Boolean acyclicity certificate at one folder row. -/
theorem rankedAcyclicB_elim {db : DB} {r : Nat → Nat} (h : rankedAcyclicB db r = true)
    {g : DbFolder} (hg : g ∈ db.folders) {p : Nat} (hp : g.parentId = some p) :
    r g.id < r p := by
  unfold rankedAcyclicB at h
  rw [List.all_eq_true] at h
  have hgp := h g hg
  rw [hp] at hgp
  exact of_decide_eq_true hgp

/-- Descending the forest can only lower the rank. -/
theorem reach_rank_le {db : DB} {r : Nat → Nat} (hr : rankedAcyclicB db r = true)
    {a b : Nat} (h : Reach db a b) : r b ≤ r a := by
  induction h with
  | refl => exact Nat.le_refl _
  | step g p hg _ hp _ ih =>
    exact Nat.le_trans (Nat.le_of_lt (rankedAcyclicB_elim hr hg hp)) ih

/-- Under acyclicity, no descent from a child folder gets back to its parent. -/
theorem no_reach_child_to_parent {db : DB} {r : Nat → Nat}
    (hr : rankedAcyclicB db r = true) {fid : Nat} {g : DbFolder}
    (hg : g ∈ db.folders) (hp : g.parentId = some fid)
    (h : Reach db g.id fid) : False :=
  Nat.lt_irrefl _ (Nat.lt_of_lt_of_le (rankedAcyclicB_elim hr hg hp) (reach_rank_le hr h))

/-- With no duplicate folder ids, equal ids mean equal rows. -/
theorem folder_id_inj {l : List DbFolder} (h : (l.map DbFolder.id).Nodup)
    {g g' : DbFolder} (hg : g ∈ l) (hg' : g' ∈ l) (heq : g.id = g'.id) : g = g' :=
  List.inj_on_of_nodup_map h hg hg' heq

/-- Since `parentId` is single-valued, two folders that both reach `b` lie on
`b`'s unique ancestor chain: one reaches the other. -/
theorem reach_merge {db : DB} (hnod : (db.folders.map DbFolder.id).Nodup) :
    ∀ {a b : Nat}, Reach db a b → ∀ {c : Nat}, Reach db c b →
      Reach db a c ∨ Reach db c a := by
  intro a b h1
  induction h1 with
  | refl => exact fun h2 => Or.inr h2
  | step g p hg hdel hp hrr ih =>
    intro c h2
    rcases reach_inv h2 with he | ⟨g2, hg2, _, hid, p2, hp2, hrr2⟩
    · exact he ▸ Or.inl (Reach.step g p hg hdel hp hrr)
    · have hgeq : g2 = g := folder_id_inj hnod hg2 hg hid
      rw [hgeq, hp] at hp2
      cases hp2
      exact ih hrr2

/-- Two distinct children of the same folder reach disjoint sets of folders. -/
theorem children_reach_disjoint {db : DB} {r : Nat → Nat}
    (hr : rankedAcyclicB db r = true) (hnod : (db.folders.map DbFolder.id).Nodup)
    {fid : Nat} {g g' : DbFolder}
    (hg : g ∈ db.folders) (hgp : g.parentId = some fid)
    (hg' : g' ∈ db.folders) (hgp' : g'.parentId = some fid)
    (hne : g ≠ g') {b : Nat} (h1 : Reach db g.id b) (h2 : Reach db g'.id b) : False := by
  rcases reach_merge hnod h1 h2 with hm | hm
  · rcases reach_inv hm with he | ⟨g2, hg2, _, hid, p2, hp2, hrr⟩
    · exact hne (folder_id_inj hnod hg hg' he.symm)
    · have hgeq : g2 = g' := folder_id_inj hnod hg2 hg' hid
      rw [hgeq, hgp'] at hp2
      cases hp2
      exact no_reach_child_to_parent hr hg hgp hrr
  · rcases reach_inv hm with he | ⟨g2, hg2, _, hid, p2, hp2, hrr⟩
    · exact hne (folder_id_inj hnod hg hg' he)
    · have hgeq : g2 = g := folder_id_inj hnod hg2 hg hid
      rw [hgeq, hgp] at hp2
      cases hp2
      exact no_reach_child_to_parent hr hg' hgp' hrr

/-- Upgrade a Nodup list to pairwise `P` given `P` on distinct members. -/
theorem pairwise_of_nodup {α : Type} {l : List α} {P : α → α → Prop} (h : l.Nodup)
    (hP : ∀ a ∈ l, ∀ b ∈ l, a ≠ b → P a b) : l.Pairwise P := by
  induction l with
  | nil => exact List.Pairwise.nil
  | cons a l ih =>
    rw [List.nodup_cons] at h
    refine List.Pairwise.cons ?_ (ih h.2 ?_)
    · intro b hb
      exact hP a (List.mem_cons_self a l) b (List.mem_cons_of_mem a hb)
        (fun he => h.1 (he ▸ hb))
    · intro x hx y hy hxy
      exact hP x (List.mem_cons_of_mem a hx) y (List.mem_cons_of_mem a hy) hxy

/-! ## Lemmas about the subfolder loop and the recursive collection -/

/-- If the loop over the subfolders completed, every recursive call in it
returned a result. -/
theorem collectSub_some (step : Nat → Option (List DbFile)) :
    ∀ (gs : List DbFolder) (acc L : List DbFile), collectSub step gs acc = some L →
      ∀ g ∈ gs, ∃ sub, step g.id = some sub := by
  intro gs
  induction gs with
  | nil => intro acc L _ g hg; cases hg
  | cons g0 gs ih =>
    intro acc L h g hg
    unfold collectSub at h
    cases hstep : step g0.id with
    | none => rw [hstep] at h; cases h
    | some sub =>
      rw [hstep] at h
      rcases List.mem_cons.mp hg with rfl | hmem
      · exact ⟨sub, hstep⟩
      · exact ih (acc ++ sub) L h g hmem

/-- Membership in a completed subfolder loop: the accumulator plus the
results of the per-child recursive calls. -/
theorem collectSub_mem (step : Nat → Option (List DbFile)) :
    ∀ (gs : List DbFolder) (acc L : List DbFile),
      collectSub step gs acc = some L →
      ∀ f, f ∈ L ↔ f ∈ acc ∨ ∃ g ∈ gs, ∃ sub, step g.id = some sub ∧ f ∈ sub := by
  intro gs
  induction gs with
  | nil =>
    intro acc L h f
    unfold collectSub at h
    cases h
    simp
  | cons g gs ih =>
    intro acc L h f
    unfold collectSub at h
    cases hstep : step g.id with
    | none => rw [hstep] at h; cases h
    | some sub =>
      rw [hstep] at h
      rw [ih (acc ++ sub) L h f]
      simp only [List.mem_append, List.mem_cons]
      constructor
      · rintro ((hfa | hfs) | ⟨g', hg', sub', hstep', hf'⟩)
        · exact Or.inl hfa
        · exact Or.inr ⟨g, Or.inl rfl, sub, hstep, hfs⟩
        · exact Or.inr ⟨g', Or.inr hg', sub', hstep', hf'⟩
      · rintro (hfa | ⟨g', hg' | hg', sub', hstep', hf'⟩)
        · exact Or.inl (Or.inl hfa)
        · subst hg'
          rw [hstep] at hstep'
          cases hstep'
          exact Or.inl (Or.inr hf')
        · exact Or.inr ⟨g', hg', sub', hstep', hf'⟩

/-- If every recursive call would succeed, the subfolder loop succeeds. -/
theorem collectSub_total (step : Nat → Option (List DbFile)) :
    ∀ (gs : List DbFolder) (acc : List DbFile),
      (∀ g ∈ gs, (step g.id).isSome = true) →
      (collectSub step gs acc).isSome = true := by
  intro gs
  induction gs with
  | nil => intro acc _; rfl
  | cons g gs ih =>
    intro acc hall
    unfold collectSub
    cases hstep : step g.id with
    | none =>
      have := hall g (List.mem_cons_self g gs)
      rw [hstep] at this
      cases this
    | some sub => exact ih (acc ++ sub) (fun g' hg' => hall g' (List.mem_cons_of_mem g hg'))

/-- Core membership characterisation: a completed recursive collection from
`fid` holds exactly the non-deleted files whose folder is reachable from
`fid` through non-deleted subfolders. -/
theorem getAllFiles_mem :
    ∀ (fuel : Nat) (db : DB) (fid : Nat) (L : List DbFile),
      getAllFiles db fuel fid = some L →
      ∀ f, f ∈ L ↔ EligibleFrom db fid f := by
  intro fuel
  induction fuel with
  | zero => intro db fid L h; cases h
  | succ n ih =>
    intro db fid L h f
    unfold getAllFiles at h
    rw [collectSub_mem (fun i => getAllFiles db n i) (subfoldersOf db fid)
      (filesInFolder db fid) L h f]
    unfold EligibleFrom
    constructor
    · rintro (hfa | ⟨g, hg, sub, hstep, hf'⟩)
      · rw [filesInFolder, List.mem_filter] at hfa
        rcases hfa with ⟨hf1, hf2⟩
        rw [Bool.and_eq_true, beq_iff_eq, beq_iff_eq] at hf2
        exact ⟨hf1, hf2.2, fid, hf2.1, Reach.refl⟩
      · rw [subfoldersOf, List.mem_filter] at hg
        rcases hg with ⟨hg1, hg2⟩
        rw [Bool.and_eq_true, beq_iff_eq, beq_iff_eq] at hg2
        rcases (ih db g.id sub hstep f).mp hf' with ⟨hf1, hf2, tid, htid, hreach⟩
        exact ⟨hf1, hf2, tid, htid,
          reach_trans (Reach.step g fid hg1 hg2.2 hg2.1 Reach.refl) hreach⟩
    · rintro ⟨hf1, hf2, tid, htid, hreach⟩
      rcases (reach_unfold db fid tid).mp hreach with rfl | ⟨g, hg, hdel, hp, hr⟩
      · refine Or.inl ?_
        rw [filesInFolder, List.mem_filter]
        exact ⟨hf1, by rw [Bool.and_eq_true, beq_iff_eq, beq_iff_eq]; exact ⟨htid, hf2⟩⟩
      · have hgmem : g ∈ subfoldersOf db fid := by
          rw [subfoldersOf, List.mem_filter]
          exact ⟨hg, by rw [Bool.and_eq_true, beq_iff_eq, beq_iff_eq]; exact ⟨hp, hdel⟩⟩
        rcases collectSub_some (fun i => getAllFiles db n i) (subfoldersOf db fid)
          (filesInFolder db fid) L h g hgmem with ⟨sub, hstep⟩
        refine Or.inr ⟨g, hgmem, sub, hstep, ?_⟩
        exact (ih db g.id sub hstep f).mpr ⟨hf1, hf2, tid, htid, hr⟩

/-- A completed subfolder loop yields a duplicate-free list, given
duplicate-free inputs whose membership sets are pairwise disjoint. `M i f`
abstracts "`f` belongs to the result of the recursive call on folder `i`". -/
theorem collectSub_nodup (step : Nat → Option (List DbFile)) (M : Nat → DbFile → Prop)
    (hstepMem : ∀ i sub, step i = some sub → ∀ f, f ∈ sub → M i f)
    (hstepNodup : ∀ i sub, step i = some sub → sub.Nodup) :
    ∀ (gs : List DbFolder) (acc L : List DbFile),
      collectSub step gs acc = some L →
      acc.Nodup →
      (∀ f ∈ acc, ∀ g ∈ gs, ¬ M g.id f) →
      gs.Pairwise (fun g g' => ∀ f, ¬(M g.id f ∧ M g'.id f)) →
      L.Nodup := by
  intro gs
  induction gs with
  | nil =>
    intro acc L h hacc _ _
    unfold collectSub at h
    cases h
    exact hacc
  | cons g gs ih =>
    intro acc L h hacc hdisj hpw
    unfold collectSub at h
    cases hstep : step g.id with
    | none => rw [hstep] at h; cases h
    | some sub =>
      rw [hstep] at h
      rw [List.pairwise_cons] at hpw
      refine ih (acc ++ sub) L h ?_ ?_ hpw.2
      · refine List.Nodup.append hacc (hstepNodup _ _ hstep) ?_
        intro f hfacc hfsub
        exact hdisj f hfacc g (List.mem_cons_self g gs) (hstepMem _ _ hstep f hfsub)
      · intro f hf g' hg'
        rcases List.mem_append.mp hf with hfa | hfs
        · exact hdisj f hfa g' (List.mem_cons_of_mem g hg')
        · exact fun hM => hpw.1 g' hg' f ⟨hstepMem _ _ hstep f hfs, hM⟩

/-- Under acyclic `parentId` and duplicate-free ids, a completed recursive
collection never lists the same file row twice. -/
theorem getAllFiles_nodup {db : DB} {r : Nat → Nat}
    (hr : rankedAcyclicB db r = true)
    (hnodF : (db.folders.map DbFolder.id).Nodup)
    (hnodFi : (db.files.map DbFile.id).Nodup) :
    ∀ (fuel fid : Nat) (L : List DbFile),
      getAllFiles db fuel fid = some L → L.Nodup := by
  intro fuel
  induction fuel with
  | zero => intro fid L h; cases h
  | succ n ih =>
    intro fid L h
    unfold getAllFiles at h
    refine collectSub_nodup (fun i => getAllFiles db n i) (fun i f => EligibleFrom db i f)
      (fun i sub hs f hf => (getAllFiles_mem n db i sub hs f).mp hf)
      (fun i sub hs => ih i sub hs)
      (subfoldersOf db fid) (filesInFolder db fid) L h
      (List.Nodup.filter _ hnodFi.of_map) ?_ ?_
    · intro f hf g hg hM
      rw [filesInFolder, List.mem_filter] at hf
      rw [Bool.and_eq_true, beq_iff_eq, beq_iff_eq] at hf
      rw [subfoldersOf, List.mem_filter] at hg
      rw [Bool.and_eq_true, beq_iff_eq, beq_iff_eq] at hg
      rcases hM with ⟨_, _, tid, htid, hreach⟩
      rw [hf.2.1] at htid
      cases htid
      exact no_reach_child_to_parent hr hg.1 hg.2.1 hreach
    · refine pairwise_of_nodup (List.Nodup.filter _ hnodF.of_map) ?_
      intro g hg g' hg' hne f hM
      rw [subfoldersOf, List.mem_filter] at hg hg'
      rw [Bool.and_eq_true, beq_iff_eq, beq_iff_eq] at hg hg'
      rcases hM with ⟨⟨_, _, tid, htid, hreach⟩, ⟨_, _, tid', htid', hreach'⟩⟩
      rw [htid] at htid'
      cases htid'
      exact children_reach_disjoint hr hnodF hg.1 hg.2.1 hg'.1 hg'.2.1 hne hreach hreach'

/-- With an acyclicity rank, fuel above the root's rank lets the walk finish. -/
theorem getAllFiles_total {db : DB} {r : Nat → Nat} (hr : rankedAcyclicB db r = true) :
    ∀ (fuel fid : Nat), r fid < fuel → (getAllFiles db fuel fid).isSome = true := by
  intro fuel
  induction fuel with
  | zero => intro fid h; exact absurd h (Nat.not_lt_zero _)
  | succ n ih =>
    intro fid hlt
    unfold getAllFiles
    refine collectSub_total _ (subfoldersOf db fid) (filesInFolder db fid) ?_
    intro g hg
    rw [subfoldersOf, List.mem_filter] at hg
    rw [Bool.and_eq_true, beq_iff_eq, beq_iff_eq] at hg
    exact ih g.id (Nat.lt_of_lt_of_le (rankedAcyclicB_elim hr hg.1 hg.2.1)
      (Nat.lt_succ_iff.mp hlt))

/-! ## Claim theorems: the recursive folder walk -/

/-- C7 counterexample: the shared root folder itself is soft-deleted, yet the
collection still returns the non-deleted file sitting directly inside it —
the walk never consults the root's own `isDeleted` flag, so "a file whose
direct parent folder is marked deleted is excluded" fails when that parent is
the shared root. -/
theorem deleted_root_file_still_collected :
    delRootFolder.isDeleted = true ∧
    delRootFile.isDeleted = false ∧
    delRootFile.folderId = some delRootFolder.id ∧
    delRootFolder ∈ delRootDb.folders ∧
    getAllFiles delRootDb 1 delRootFolder.id = some [delRootFile] := by
  decide

/-- C7 (amended): a completed recursive collection from the shared folder
returns exactly the non-deleted files reachable through a chain of
non-deleted subfolders; a file under a deleted subfolder is excluded, but the
shared root folder's own deleted flag is never consulted. -/
theorem getAllFiles_collects_exactly_reachable (db : DB) (fuel fid : Nat)
    (L : List DbFile) (h : getAllFiles db fuel fid = some L) (f : DbFile) :
    f ∈ L ↔ EligibleFrom db fid f :=
  getAllFiles_mem fuel db fid L h f

/-- C7 amended-claim witness at the deleted-root fixture. -/
theorem getAllFiles_collects_exactly_reachable_witness :
    getAllFiles delRootDb 1 1 = some [delRootFile] ∧
    (delRootFile ∈ [delRootFile] ↔ EligibleFrom delRootDb 1 delRootFile) :=
  ⟨by decide,
   getAllFiles_collects_exactly_reachable delRootDb 1 1 [delRootFile] (by decide) delRootFile⟩

/-- C10: when some rank function certifies the `parentId` relation acyclic
(children rank strictly below parents) and ids are duplicate-free, the
recursive collection completes on any fuel above the root's rank and lists
every eligible file exactly once; and on the two-folder `parentId` cycle the
unguarded recursion never completes, whatever the fuel. -/
theorem getAllFiles_acyclic_terminates_once :
    (∀ (db : DB) (r : Nat → Nat), rankedAcyclicB db r = true →
      (db.folders.map DbFolder.id).Nodup →
      (db.files.map DbFile.id).Nodup →
      ∀ (fuel fid : Nat), r fid < fuel →
        ∃ L, getAllFiles db fuel fid = some L ∧
          ∀ f, EligibleFrom db fid f → L.count f = 1) ∧
    (∀ fuel, getAllFiles cycDb fuel 1 = none) := by
  constructor
  · intro db r hr hnodF hnodFi fuel fid hfuel
    rcases Option.isSome_iff_exists.mp (getAllFiles_total hr fuel fid hfuel) with ⟨L, hL⟩
    refine ⟨L, hL, fun f hf => ?_⟩
    exact List.count_eq_one_of_mem (getAllFiles_nodup hr hnodF hnodFi fuel fid L hL)
      ((getAllFiles_mem fuel db fid L hL f).mpr hf)
  · have key : ∀ fuel, getAllFiles cycDb fuel 1 = none ∧ getAllFiles cycDb fuel 2 = none := by
      intro fuel
      induction fuel with
      | zero => exact ⟨rfl, rfl⟩
      | succ n ih =>
        constructor
        · show collectSub (fun i => getAllFiles cycDb n i)
            (subfoldersOf cycDb 1) (filesInFolder cycDb 1) = none
          rw [show subfoldersOf cycDb 1 =
            [{ id := 2, parentId := some 1, isDeleted := false }] from rfl]
          unfold collectSub
          rw [ih.2]
        · show collectSub (fun i => getAllFiles cycDb n i)
            (subfoldersOf cycDb 2) (filesInFolder cycDb 2) = none
          rw [show subfoldersOf cycDb 2 =
            [{ id := 1, parentId := some 2, isDeleted := false }] from rfl]
          unfold collectSub
          rw [ih.1]
    exact fun fuel => (key fuel).1

/-- C10 witness: identity rank on the one-folder fixture, and fuel 5 on the
cycle. -/
theorem getAllFiles_acyclic_terminates_once_witness :
    (∃ L, getAllFiles exDb 2 1 = some L ∧
      ∀ f, EligibleFrom exDb 1 f → L.count f = 1) ∧
    getAllFiles cycDb 5 1 = none :=
  ⟨getAllFiles_acyclic_terminates_once.1 exDb (fun i => i) (by decide) (by decide)
    (by decide) 2 1 (by decide),
   getAllFiles_acyclic_terminates_once.2 5⟩

end FileShare
